import Mathlib

/-!
A shallow embedding of the tool-invocation subsystem (safety validator,
parameter model, tool executor, tool-calling loop) of the `my-agent-toolkit`
repository, together with theorems settling the specification claims.

Python values are modelled by the inductive `PyValue`; Python dicts are
association lists (insertion ordered, unique keys); a Python `float` payload
is modelled by an `Int` stand-in (no claim depends on float arithmetic);
raising Python code is modelled with `Except`.
-/

set_option maxRecDepth 10000

/-- Model of a Python value as it flows through the tool framework. -/
inductive PyValue where
  | none : PyValue
  | bool (b : Bool) : PyValue
  | int (n : Int) : PyValue
  | float (n : Int) : PyValue
  | str (s : String) : PyValue
  | list (items : List PyValue) : PyValue
  | dict (entries : List (String × PyValue)) : PyValue
deriving Repr

/-- A single-quote character, used to build the f-string messages of the source. -/
def apos : String := String.singleton (Char.ofNat 39)

/-- `quote1 s` renders `s` surrounded by single quotes, as the f-strings of the source do. -/
def quote1 (s : String) : String := apos ++ s ++ apos

/-- Python `isinstance(v, str)`. -/
def pyIsStr : PyValue → Bool
  | .str _ => true
  | _ => false

/-- Python `isinstance(v, bool)`. -/
def pyIsBool : PyValue → Bool
  | .bool _ => true
  | _ => false

/-- Python `isinstance(v, int)`: `bool` is a subclass of `int` in Python. -/
def pyIsInt : PyValue → Bool
  | .int _ => true
  | .bool _ => true
  | _ => false

/-- Python `isinstance(v, float)`. -/
def pyIsFloat : PyValue → Bool
  | .float _ => true
  | _ => false

/-- Python `isinstance(v, list)`. -/
def pyIsList : PyValue → Bool
  | .list _ => true
  | _ => false

/-- Python `isinstance(v, dict)`. -/
def pyIsDict : PyValue → Bool
  | .dict _ => true
  | _ => false

/-- Python dict lookup `d.get(k)` on an association list (first binding wins). -/
def dictGet : List (String × PyValue) → String → Option PyValue
  | [], _ => Option.none
  | (k, v) :: rest, key => if k = key then some v else dictGet rest key

/-- Python dict assignment `d[k] = v`: overwrite in place if the key exists
(keeping insertion order), otherwise append at the end. -/
def dictSet (d : List (String × PyValue)) (key : String) (v : PyValue) :
    List (String × PyValue) :=
  if (d.map Prod.fst).contains key then
    d.map (fun kv => (kv.1, if kv.1 = key then v else kv.2))
  else
    d ++ [(key, v)]

/-- The numeric value of a Python `bool` seen as an `int`. -/
def boolAsInt (b : Bool) : Int := if b then 1 else 0

mutual
/-- Python `==` on modelled values: numeric types compare across `bool`, `int`
and the `float` stand-in; containers compare elementwise. -/
def pyEq : PyValue → PyValue → Bool
  | .none, .none => true
  | .bool a, .bool b => a == b
  | .bool a, .int n => boolAsInt a == n
  | .int n, .bool a => n == boolAsInt a
  | .bool a, .float n => boolAsInt a == n
  | .float n, .bool a => n == boolAsInt a
  | .int a, .int b => a == b
  | .int a, .float b => a == b
  | .float a, .int b => a == b
  | .float a, .float b => a == b
  | .str a, .str b => a == b
  | .list a, .list b => pyEqList a b
  | .dict a, .dict b => pyEqDict a b
  | _, _ => false

/-- Elementwise Python `==` on lists. -/
def pyEqList : List PyValue → List PyValue → Bool
  | [], [] => true
  | x :: xs, y :: ys => pyEq x y && pyEqList xs ys
  | _, _ => false

/-- Entrywise Python `==` on dict association lists. -/
def pyEqDict : List (String × PyValue) → List (String × PyValue) → Bool
  | [], [] => true
  | (k, x) :: xs, (k2, y) :: ys => k == k2 && pyEq x y && pyEqDict xs ys
  | _, _ => false
end

/-- Python `in` membership test on a list, via Python `==`. -/
def pyMem (v : PyValue) : List PyValue → Bool
  | [] => false
  | x :: xs => pyEq v x || pyMem v xs

/-! ### A small regular-expression engine

The safety rules of `src/core/tools/safety.py` are Python regexes compiled
with `re.IGNORECASE` and searched with `pattern.search(text)`.  The fragment
actually used by the rule table is: literal characters, character classes,
`.`, `\s`, `\b` (word boundary), concatenation, alternation, `*`, `+`.
`RE` is the syntax of that fragment and `searchRE` its search semantics
(match starting at any position); the matcher is fuel-bounded so that it is
a total executable function. -/

/-- Regular-expression syntax for the fragment used by the safety rules. -/
inductive RE where
  | eps : RE
  | cls (p : Char → Bool) : RE
  | cat (r1 r2 : RE) : RE
  | alt (r1 r2 : RE) : RE
  | star (r : RE) : RE
  | wb : RE

/-- Word character in the sense of `\b` for ASCII text: letter, digit or underscore. -/
def isWordChar (c : Char) : Bool := c.isAlphanum || c == Char.ofNat 95

/-- One matching step: all ways for `re` to consume a prefix of `s`, each
returned as (character preceding the rest, rest).  `prev` is the character
before `s` (for `\b`).  Fuel bounds the recursion; stars only iterate on
strict progress. -/
def runRE : Nat → RE → Option Char → List Char → List (Option Char × List Char)
  | 0, _, _, _ => []
  | _ + 1, .eps, prev, s => [(prev, s)]
  | _ + 1, .cls _, _, [] => []
  | _ + 1, .cls p, _, c :: rest => if p c then [(some c, rest)] else []
  | n + 1, .cat r1 r2, prev, s =>
      (runRE n r1 prev s).flatMap (fun pr => runRE n r2 pr.1 pr.2)
  | n + 1, .alt r1 r2, prev, s => runRE n r1 prev s ++ runRE n r2 prev s
  | n + 1, .star r, prev, s =>
      (prev, s) :: (runRE n r prev s).flatMap (fun pr =>
        if pr.2.length < s.length then runRE n (.star r) pr.1 pr.2 else [])
  | _ + 1, .wb, prev, s =>
      let before := match prev with
        | Option.none => false
        | some c => isWordChar c
      let after := match s with
        | [] => false
        | c :: _ => isWordChar c
      if before != after then [(prev, s)] else []

/-- Structural size of a regex, used to compute a sufficient fuel. -/
def reSize : RE → Nat
  | .eps => 1
  | .cls _ => 1
  | .cat r1 r2 => reSize r1 + reSize r2 + 1
  | .alt r1 r2 => reSize r1 + reSize r2 + 1
  | .star r => reSize r + 1
  | .wb => 1

/-- Try to match `re` at the current position or at any later one. -/
def searchAux (fuel : Nat) (re : RE) : Option Char → List Char → Bool
  | prev, s =>
    if (runRE fuel re prev s).isEmpty then
      match s with
      | [] => false
      | c :: rest => searchAux fuel re (some c) rest
    else true

/-- Python `pattern.search(text) is not None` for the modelled fragment. -/
def searchRE (re : RE) (text : String) : Bool :=
  let cs := text.toList
  searchAux ((reSize re + 2) * (cs.length + 2) + 8) re Option.none cs

/-- A literal character, compared case-insensitively (`re.IGNORECASE`). -/
def chC (c : Char) : RE := .cls (fun x => x.toLower == c.toLower)

/-- A literal string of case-insensitive characters. -/
def strC (s : String) : RE := s.toList.foldr (fun c acc => .cat (chC c) acc) .eps

/-- `\s`: ASCII whitespace as Python matches it on ASCII text. -/
def reWS : RE := .cls (fun c =>
  c == ' ' || c == Char.ofNat 9 || c == Char.ofNat 10 || c == Char.ofNat 13 ||
  c == Char.ofNat 11 || c == Char.ofNat 12)

/-- `.`: any character except a newline. -/
def reDot : RE := .cls (fun c => c != Char.ofNat 10)

/-- `r+` desugared as `r r*`. -/
def rePlus (r : RE) : RE := .cat r (.star r)

/-- `[a-z]` under `re.IGNORECASE`: any ASCII letter. -/
def reAlpha : RE := .cls Char.isAlpha

/-- `[0-9]`. -/
def reDigit : RE := .cls Char.isDigit

/-- Concatenation of a list of regexes. -/
def cats (l : List RE) : RE := l.foldr .cat .eps

/-- Alternation of a non-empty list of regexes. -/
def alts : List RE → RE
  | [] => .eps
  | [r] => r
  | r :: rest => .alt r (alts rest)

/-! ### The safety rule table (`SafetyValidator` class constants) -/

/-- A safety rule: name, compiled pattern (modelled as `RE`), severity,
message and category, mirroring the `SafetyRule` dataclass. -/
structure SafetyRule where
  name : String
  pattern : RE
  severity : String
  message : String
  category : String

/-- `\brm\s+(-[a-z]*r[a-z]*f|--recursive\s+--force|-fr|-rf)\b` -/
def re_rm_rf : RE := cats [.wb, strC "rm", rePlus reWS,
  alts [cats [chC '-', .star reAlpha, chC 'r', .star reAlpha, chC 'f'],
        cats [strC "--recursive", rePlus reWS, strC "--force"],
        strC "-fr", strC "-rf"],
  .wb]

/-- `\brm\b.*\s+(-r|--recursive).*(/\s|/\*)` -/
def re_rm_root : RE := cats [.wb, strC "rm", .wb, .star reDot, rePlus reWS,
  alts [strC "-r", strC "--recursive"], .star reDot,
  alts [.cat (chC '/') reWS, strC "/*"]]

/-- `\bmkfs\b` -/
def re_mkfs : RE := cats [.wb, strC "mkfs", .wb]

/-- `\bdd\b.*\bof=/dev/(sd[a-z]|hd[a-z]|nvme[0-9])` -/
def re_dd : RE := cats [.wb, strC "dd", .wb, .star reDot, .wb, strC "of=/dev/",
  alts [.cat (strC "sd") reAlpha, .cat (strC "hd") reAlpha,
        .cat (strC "nvme") reDigit]]

/-- `\b(fdisk|parted|gdisk)\b` -/
def re_format_disk : RE := cats [.wb,
  alts [strC "fdisk", strC "parted", strC "gdisk"], .wb]

/-- `\b(shutdown|poweroff|reboot|init\s+[06])\b` -/
def re_shutdown : RE := cats [.wb,
  alts [strC "shutdown", strC "poweroff", strC "reboot",
        cats [strC "init", rePlus reWS, .cls (fun c => c == '0' || c == '6')]],
  .wb]

/-- `\bkillall\b.*-9` -/
def re_kill_all : RE := cats [.wb, strC "killall", .wb, .star reDot, strC "-9"]

/-- `:\(\)\{.*:\|:.*\};:` (all punctuation literal; braces written via codes). -/
def re_fork_bomb : RE := cats [strC ":()", chC (Char.ofNat 123), .star reDot,
  strC ":|:", .star reDot, chC (Char.ofNat 125), strC ";:"]

/-- `\bchmod\b.*777` -/
def re_chmod_777 : RE := cats [.wb, strC "chmod", .wb, .star reDot, strC "777"]

/-- `\b(ufw|iptables|firewalld)\b.*(disable|stop|flush|--flush)` -/
def re_disable_firewall : RE := cats [.wb,
  alts [strC "ufw", strC "iptables", strC "firewalld"], .wb, .star reDot,
  alts [strC "disable", strC "stop", strC "flush", strC "--flush"]]

/-- `\bcurl\b.*\|\s*(bash|sh|zsh)` -/
def re_curl_pipe_sh : RE := cats [.wb, strC "curl", .wb, .star reDot, chC '|',
  .star reWS, alts [strC "bash", strC "sh", strC "zsh"]]

/-- `\bwget\b.*-O\s*-.*\|\s*(bash|sh|zsh)` -/
def re_wget_pipe_sh : RE := cats [.wb, strC "wget", .wb, .star reDot,
  strC "-O", .star reWS, chC '-', .star reDot, chC '|', .star reWS,
  alts [strC "bash", strC "sh", strC "zsh"]]

/-- `\beval\b\s*\(` -/
def re_eval_rule : RE := cats [.wb, strC "eval", .wb, .star reWS, chC '(']

/-- `\bexec\b\s*\(` -/
def re_exec_rule : RE := cats [.wb, strC "exec", .wb, .star reWS, chC '(']

namespace SafetyValidator

/-- `DANGEROUS_FS_PATTERNS`. -/
def DANGEROUS_FS_PATTERNS : List SafetyRule := [
  ⟨"rm_rf", re_rm_rf, "error", "Recursive force removal detected (rm -rf)", "filesystem"⟩,
  ⟨"rm_root", re_rm_root, "error", "Removal of root directory or critical paths", "filesystem"⟩,
  ⟨"mkfs", re_mkfs, "error", "Filesystem creation/formatting detected (mkfs)", "filesystem"⟩,
  ⟨"dd_dangerous", re_dd, "error", "Direct disk write detected (dd to block device)", "filesystem"⟩,
  ⟨"format_disk", re_format_disk, "error", "Disk partitioning/formatting tool detected", "filesystem"⟩]

/-- `DANGEROUS_SYSTEM_PATTERNS`. -/
def DANGEROUS_SYSTEM_PATTERNS : List SafetyRule := [
  ⟨"shutdown", re_shutdown, "error", "System shutdown/reboot command detected", "system"⟩,
  ⟨"kill_all", re_kill_all, "warning", "Force kill all processes (killall -9)", "system"⟩,
  ⟨"fork_bomb", re_fork_bomb, "error", "Fork bomb pattern detected", "system"⟩,
  ⟨"chmod_777", re_chmod_777, "warning", "Overly permissive permissions (chmod 777)", "system"⟩,
  ⟨"disable_firewall", re_disable_firewall, "warning", "Firewall modification detected", "system"⟩]

/-- `DANGEROUS_NETWORK_PATTERNS`. -/
def DANGEROUS_NETWORK_PATTERNS : List SafetyRule := [
  ⟨"curl_pipe_sh", re_curl_pipe_sh, "error", "Piping remote content to shell (curl | sh)", "network"⟩,
  ⟨"wget_pipe_sh", re_wget_pipe_sh, "error", "Piping remote content to shell (wget | sh)", "network"⟩]

/-- `DANGEROUS_EXEC_PATTERNS`. -/
def DANGEROUS_EXEC_PATTERNS : List SafetyRule := [
  ⟨"eval", re_eval_rule, "warning", "Use of eval() for code execution", "execution"⟩,
  ⟨"exec", re_exec_rule, "warning", "Use of exec() for code execution", "execution"⟩]

/-- `self.rules`: the concatenation built in `__init__`. -/
def rules : List SafetyRule :=
  DANGEROUS_FS_PATTERNS ++ DANGEROUS_SYSTEM_PATTERNS ++
  DANGEROUS_NETWORK_PATTERNS ++ DANGEROUS_EXEC_PATTERNS

/-- `DANGEROUS_PATHS`. -/
def DANGEROUS_PATHS : List String :=
  ["/", "/etc", "/bin", "/sbin", "/usr", "/var", "/boot", "/sys", "/proc"]

end SafetyValidator

/-! ### `SafetyValidator.validate_command`, `validate_path`, `validate_parameters` -/

/-- `listStartsWith needle hay`: `hay` begins with `needle`. -/
def listStartsWith : List Char → List Char → Bool
  | [], _ => true
  | _ :: _, [] => false
  | a :: as, b :: bs => a == b && listStartsWith as bs

/-- `s.upper()` character by character (kernel-reducible). -/
def strToUpper (s : String) : String := String.mk (s.toList.map Char.toUpper)

/-- `s.lower()` character by character (kernel-reducible). -/
def strToLower (s : String) : String := String.mk (s.toList.map Char.toLower)

/-- Python `s.startswith(pre)`. -/
def strStartsWith (s pre : String) : Bool := listStartsWith pre.toList s.toList

/-- `f"[{rule.severity.upper()}] {rule.message}"`. -/
def formatViolation (r : SafetyRule) : String :=
  "[" ++ strToUpper r.severity ++ "] " ++ r.message

/-- `listContainsSub needle hay`: `needle` occurs contiguously in `hay`. -/
def listContainsSub (needle : List Char) : List Char → Bool
  | [] => listStartsWith needle []
  | c :: rest => listStartsWith needle (c :: rest) || listContainsSub needle rest

/-- Python `needle in hay` on strings. -/
def strContainsSub (hay needle : String) : Bool :=
  listContainsSub needle.toList hay.toList

/-- Python `path.rstrip("/")`: drop every trailing slash. -/
def rstripSlash (s : String) : String :=
  String.mk ((s.toList.reverse.dropWhile (fun c => c == '/')).reverse)

namespace SafetyValidator

/-- `validate_command(command, allow_warnings)`: scan every rule, collect a
formatted violation per match, block on an error match or (when warnings are
not allowed) a warning match. -/
def validate_command (command : String) (allow_warnings : Bool) :
    Bool × List String :=
  let acc := rules.foldl
    (fun (acc : List String × Bool) (rule : SafetyRule) =>
      if searchRE rule.pattern command then
        (acc.1 ++ [formatViolation rule],
         acc.2 || rule.severity == "error" ||
           (rule.severity == "warning" && !allow_warnings))
      else acc)
    ([], false)
  (!acc.2, acc.1)

/-- The loop body of `validate_path`, walking `DANGEROUS_PATHS` in order. -/
def validatePathGo (normalized path : String) : List String → Bool × Option String
  | [] => (true, Option.none)
  | dp :: rest =>
    if normalized == dp then
      (false, some ("Access to critical system path denied: " ++ path))
    else if strStartsWith normalized (dp ++ "/") then
      (true, some ("Modification of system path may be dangerous: " ++ path))
    else validatePathGo normalized path rest

/-- `validate_path(path)`: strip trailing slashes, then deny an exact match
against a dangerous path and warn about a path nested strictly below one. -/
def validate_path (path : String) : Bool × Option String :=
  validatePathGo (rstripSlash path) path DANGEROUS_PATHS

/-- The key heuristic of `validate_parameters`: the key (lower-cased)
contains one of `path`, `file`, `dir`, `directory`. -/
def pathSuggestive (key : String) : Bool :=
  ["path", "file", "dir", "directory"].any
    (fun pk => strContainsSub (strToLower key) pk)

mutual
/-- The violations `validate_parameters` collects over the entries of a
parameter dict, in order. -/
def vpEntries (allow : Bool) : List (String × PyValue) → List String
  | [] => []
  | (key, value) :: rest => vpEntry allow key value ++ vpEntries allow rest

/-- The violations collected for one `key: value` entry: strings go through
`validate_command` (and `validate_path` when the key is path-suggestive),
dicts recurse, lists recurse element by element, other values are skipped. -/
def vpEntry (allow : Bool) (key : String) : PyValue → List String
  | .str s =>
      let r := validate_command s allow
      let v1 := if !r.1 || !r.2.isEmpty then
          r.2.map (fun v => "Parameter " ++ quote1 key ++ ": " ++ v)
        else []
      let v2 := if pathSuggestive key then
          match validate_path s with
          | (false, some e) =>
              if e == "" then [] else ["Parameter " ++ quote1 key ++ ": " ++ e]
          | _ => []
        else []
      v1 ++ v2
  | .dict entries => vpEntries allow entries
  | .list items => vpItems allow key 0 items
  | _ => []

/-- List elements: a string element is revalidated as the singleton entry
`{f"{key}[{i}]": item}` (inlined here as a direct `vpEntry` call on the new
key), a dict element is passed through directly, others are skipped. -/
def vpItems (allow : Bool) (key : String) : Nat → List PyValue → List String
  | _, [] => []
  | i, item :: rest =>
      (match item with
       | .str s => vpEntry allow (key ++ "[" ++ toString i ++ "]") (.str s)
       | .dict entries => vpEntries allow entries
       | _ => []) ++ vpItems allow key (i + 1) rest
end

/-- `validate_parameters(tool_name, params, allow_warnings)`: collect all
violations over the entries and report safe iff none were collected. -/
def validate_parameters (tool_name : String) (params : List (String × PyValue))
    (allow_warnings : Bool) : Bool × List String :=
  let _ := tool_name
  let violations := vpEntries allow_warnings params
  (violations.isEmpty, violations)

end SafetyValidator

/-! ### The parameter model (`src/core/tools/models.py`) -/

/-- `ParameterType`: the six supported parameter kinds. -/
inductive ParameterType where
  | STRING | INTEGER | NUMBER | BOOLEAN | ARRAY | OBJECT
deriving DecidableEq, Repr

/-- The wire value of a `ParameterType` (its Python enum value). -/
def ParameterType.value : ParameterType → String
  | .STRING => "string"
  | .INTEGER => "integer"
  | .NUMBER => "number"
  | .BOOLEAN => "boolean"
  | .ARRAY => "array"
  | .OBJECT => "object"

/-- `ToolParameter`: name, kind, description, required flag, default
(`PyValue.none` models the Python `None` used for "no default"), enum,
`items` (the array item schema dict) and nested `properties`. -/
inductive ToolParameter where
  | mk (name : String) (param_type : ParameterType) (description : String)
      (required : Bool) (default : PyValue) (enum : Option (List PyValue))
      (items : Option (List (String × PyValue)))
      (properties : Option (List (String × ToolParameter)))

/-- Field accessor: `name`. -/
def ToolParameter.name : ToolParameter → String
  | .mk n _ _ _ _ _ _ _ => n

/-- Field accessor: `param_type`. -/
def ToolParameter.param_type : ToolParameter → ParameterType
  | .mk _ t _ _ _ _ _ _ => t

/-- Field accessor: `required`. -/
def ToolParameter.required : ToolParameter → Bool
  | .mk _ _ _ r _ _ _ _ => r

/-- Field accessor: `default`. -/
def ToolParameter.default : ToolParameter → PyValue
  | .mk _ _ _ _ d _ _ _ => d

/-- Python `v is None` on the modelled value. -/
def pyIsNone : PyValue → Bool
  | .none => true
  | _ => false

/-- Python truthiness of a modelled value. -/
def pyTruthy : PyValue → Bool
  | .none => false
  | .bool b => b
  | .int n => n != 0
  | .float n => n != 0
  | .str s => s != ""
  | .list items => !items.isEmpty
  | .dict es => !es.isEmpty

mutual
/-- Python `repr` of a modelled value (best effort; no claim depends on it). -/
def pyRepr : PyValue → String
  | .none => "None"
  | .bool b => if b then "True" else "False"
  | .int n => toString n
  | .float n => toString n
  | .str s => quote1 s
  | .list items => "[" ++ pyReprSeq items ++ "]"
  | .dict es => pyReprDict es

/-- `, `-joined reprs of list elements. -/
def pyReprSeq : List PyValue → String
  | [] => ""
  | [v] => pyRepr v
  | v :: rest => pyRepr v ++ ", " ++ pyReprSeq rest

/-- Repr of a dict (best effort). -/
def pyReprDict (es : List (String × PyValue)) : String :=
  "dict(" ++ pyReprDictSeq es ++ ")"

/-- Comma-joined entries of a dict repr. -/
def pyReprDictSeq : List (String × PyValue) → String
  | [] => ""
  | [(k, v)] => k ++ "=" ++ pyRepr v
  | (k, v) :: rest => k ++ "=" ++ pyRepr v ++ ", " ++ pyReprDictSeq rest
end

/-- Python `str()` of a modelled value, as an f-string interpolates it. -/
def pyStrOf : PyValue → String
  | .str s => s
  | v => pyRepr v

/-- The `type_checks` table of `ToolParameter.validate`: strict typing with
`bool` excluded from the `integer` and `number` kinds. -/
def typeCheckKind : ParameterType → PyValue → Bool
  | .STRING, v => pyIsStr v
  | .INTEGER, v => pyIsInt v && !pyIsBool v
  | .NUMBER, v => (pyIsInt v || pyIsFloat v) && !pyIsBool v
  | .BOOLEAN, v => pyIsBool v
  | .ARRAY, v => pyIsList v
  | .OBJECT, v => pyIsDict v

/-- `ToolParameter._check_type(value, type_str)`: the per-item type check for
array elements; an unknown or non-string type descriptor passes. -/
def ToolParameter.check_type (value : PyValue) (type_str : PyValue) : Bool :=
  match type_str with
  | .str t =>
    if t == "string" then pyIsStr value
    else if t == "integer" then pyIsInt value && !pyIsBool value
    else if t == "number" then (pyIsInt value || pyIsFloat value) && !pyIsBool value
    else if t == "boolean" then pyIsBool value
    else if t == "array" then pyIsList value
    else if t == "object" then pyIsDict value
    else true
  | _ => true

/-- The array-items loop of `validate`: the first failing index is reported. -/
def checkArrayItems (nm : String) (tstr : PyValue) : Nat → List PyValue → Option String
  | _, [] => Option.none
  | i, item :: rest =>
    if !ToolParameter.check_type item tstr then
      some ("Array item " ++ toString i ++ " in " ++ quote1 nm ++
            " must be of type " ++ pyStrOf tstr)
    else checkArrayItems nm tstr (i + 1) rest

mutual
/-- `ToolParameter.validate(value)`: required check, strict kind check, enum
membership, array item checks, recursive object property checks. -/
def ToolParameter.validate : ToolParameter → PyValue → Bool × Option String
  | .mk nm pt _ req _ en it props, value =>
    match value with
    | .none =>
      if req then (false, some ("Parameter " ++ quote1 nm ++ " is required"))
      else (true, Option.none)
    | v =>
      if !typeCheckKind pt v then
        (false, some ("Parameter " ++ quote1 nm ++ " must be of type " ++ pt.value))
      else
        let enumBad := match en with
          | some l => !l.isEmpty && !pyMem v l
          | Option.none => false
        if enumBad then
          (false, some ("Parameter " ++ quote1 nm ++ " must be one of " ++
            (match en with
             | some l => "[" ++ pyReprSeq l ++ "]"
             | Option.none => "None")))
        else
          let arrErr := match pt, it, v with
            | .ARRAY, some d, .list items =>
              if !d.isEmpty then
                let item_type := (dictGet d "type").getD .none
                if pyTruthy item_type then checkArrayItems nm item_type 0 items
                else Option.none
              else Option.none
            | _, _, _ => Option.none
          match arrErr with
          | some e => (false, some e)
          | Option.none =>
            match pt, props, v with
            | .OBJECT, some ps, .dict d =>
              if !ps.isEmpty then validateProps nm ps d else (true, Option.none)
            | _, _, _ => (true, Option.none)

/-- The object-properties loop of `validate`: each named property is
validated recursively; the first failure is reported with an `In '<name>':`
prefix. -/
def validateProps (owner : String) :
    List (String × ToolParameter) → List (String × PyValue) → Bool × Option String
  | [], _ => (true, Option.none)
  | (pn, pp) :: rest, d =>
    let pv := (dictGet d pn).getD .none
    match ToolParameter.validate pp pv with
    | (true, _) => validateProps owner rest d
    | (false, e) =>
      (false, some ("In " ++ quote1 owner ++ ": " ++ e.getD "None"))
end

/-- `ToolResult`: the uniform outcome record. -/
structure ToolResult where
  success : Bool
  output : PyValue
  error : Option String := Option.none
  execution_time : Nat := 0
  metadata : List (String × PyValue) := []
deriving Repr

/-- `ToolCall`: a batch/correlated call request. -/
structure ToolCall where
  tool_name : String
  parameters : List (String × PyValue)
  call_id : Option String := Option.none
  context : List (String × PyValue) := []

/-! ### `BaseTool.validate_parameters` (`src/core/tools/base.py`) -/

/-- `", ".join(...)`. -/
def joinCommaSpace : List String → String
  | [] => ""
  | [s] => s
  | s :: rest => s ++ ", " ++ joinCommaSpace rest

/-- `"; ".join(...)`. -/
def joinSemiSpace : List String → String
  | [] => ""
  | [s] => s
  | s :: rest => s ++ "; " ++ joinSemiSpace rest

namespace BaseTool

/-- The default-resolution step of `validate_parameters` for one declared
parameter: resolve the value (Python `params.get` gives `None` for an absent
key) and, when it is `None` and a non-`None` default exists, write the
default into the dict; returns the value to validate and the (possibly
mutated) dict, mirroring the in-place mutation of the Python dict. -/
def vpStep (pd : ToolParameter) (ps : List (String × PyValue)) :
    PyValue × List (String × PyValue) :=
  let value := (dictGet ps pd.name).getD .none
  if pyIsNone value && !pyIsNone pd.default then
    (pd.default, dictSet ps pd.name pd.default)
  else (value, ps)

/-- The per-declared-parameter loop of `validate_parameters`: default
resolution (`vpStep`) then validation; the first failure returns. -/
def vpLoop : List ToolParameter → List (String × PyValue) →
    Bool × Option String × List (String × PyValue)
  | [], ps => (true, Option.none, ps)
  | pd :: rest, ps =>
    let vp := vpStep pd ps
    match ToolParameter.validate pd vp.1 with
    | (true, _) => vpLoop rest vp.2
    | (false, e) => (false, e, vp.2)

/-- `BaseTool.validate_parameters(params)`: reject unknown keys up front,
then run the per-parameter loop.  (Python joins the unknown keys from a
`set`, whose order is unspecified; the embedding uses the dict order.) -/
def validate_parameters (parameters : List ToolParameter)
    (params : List (String × PyValue)) :
    Bool × Option String × List (String × PyValue) :=
  let names := parameters.map ToolParameter.name
  let unknown := (params.map Prod.fst).filter (fun k => !names.contains k)
  if !unknown.isEmpty then
    (false, some ("Unknown parameters: " ++ joinCommaSpace unknown), params)
  else
    vpLoop parameters params

end BaseTool

/-! ### Registry resolution and the executor (`registry.py`, `executor.py`) -/

/-- A Python exception, split into the two classes `_get_tool` distinguishes. -/
inductive PyErr where
  | valueError (msg : String)
  | exc (msg : String)

/-- `str(e)` of a modelled exception. -/
def PyErr.msg : PyErr → String
  | .valueError m => m
  | .exc m => m

/-- A tool implementation as the executor sees it: its declared parameters
and its `execute`, which may raise (`Except.error`) or return either a
`ToolResult` or a bare value to be coerced. -/
structure Tool where
  parameters : List ToolParameter
  execute : List (String × PyValue) → Except String (Sum ToolResult PyValue)

/-- One registry entry: the enabled flag from the metadata and the
instantiation behaviour of the registered class (which may raise). -/
structure RegEntry where
  enabled : Bool
  make : Except PyErr Tool

/-- Lookup in the registry map. -/
def regGet : List (String × RegEntry) → String → Option RegEntry
  | [], _ => Option.none
  | (k, e) :: rest, key => if k = key then some e else regGet rest key

namespace ToolRegistry

/-- `ToolRegistry.create(tool_name)`: `ValueError` when unregistered or
disabled; a failing constructor re-raises its exception. -/
def create (reg : List (String × RegEntry)) (tool_name : String) :
    Except PyErr Tool :=
  match regGet reg tool_name with
  | Option.none =>
    .error (.valueError ("Tool " ++ quote1 tool_name ++
      " not found. Available tools: " ++ joinCommaSpace (reg.map Prod.fst)))
  | some e =>
    if !e.enabled then
      .error (.valueError ("Tool " ++ quote1 tool_name ++ " is disabled"))
    else e.make

end ToolRegistry

/-- The running counters of `ToolExecutor.stats` (time as an abstract `Nat`). -/
structure Stats where
  total_executions : Nat
  successful_executions : Nat
  failed_executions : Nat
  blocked_executions : Nat
  total_execution_time : Nat
deriving Repr

/-- The fresh statistics of `ToolExecutor.__init__`. -/
def Stats.init : Stats := ⟨0, 0, 0, 0, 0⟩

/-- Executor configuration: the safety flags of `__init__` and the registry
the class-level `ToolRegistry` resolves against (`self.safety_validator` is
non-`None` exactly when `safety_enabled`, per the constructor). -/
structure ExecConfig where
  safety_enabled : Bool
  allow_warnings : Bool
  registry : List (String × RegEntry)

namespace ToolExecutor

/-- `ToolExecutor._get_tool`: catch `ValueError` as a not-found result and
any other exception as a creation-failed result. -/
def get_tool (reg : List (String × RegEntry)) (tool_name : String) :
    Sum Tool ToolResult :=
  match ToolRegistry.create reg tool_name with
  | .ok t => .inl t
  | .error (.valueError e) =>
    .inr { success := false, output := .none,
           error := some ("Tool not found: " ++ e) }
  | .error (.exc e) =>
    .inr { success := false, output := .none,
           error := some ("Tool creation failed: " ++ e) }

/-- The invoke-and-wrap step of `execute`: run the tool, coerce a bare value
into a successful `ToolResult`, stamp the elapsed time, update the
success/failure counters and the cumulative time. -/
def runTool (tool : Tool) (ps : List (String × PyValue)) (elapsed : Nat)
    (st : Stats) : ToolResult × Stats :=
  match tool.execute ps with
  | .error e =>
    ({ success := false, output := .none,
       error := some ("Execution error: " ++ e), execution_time := elapsed },
     { st with failed_executions := st.failed_executions + 1 })
  | .ok res =>
    let result := match res with
      | .inl tr => tr
      | .inr v => { success := true, output := v }
    let result := { result with execution_time := elapsed }
    let st := if result.success then
        { st with successful_executions := st.successful_executions + 1 }
      else
        { st with failed_executions := st.failed_executions + 1 }
    let st := { st with
        total_execution_time := st.total_execution_time + elapsed }
    (result, st)

/-- `ToolExecutor.execute(tool_name, parameters)`: resolution, parameter
validation (with in-place defaulting), safety screening, execution; every
path returns a `ToolResult` (the function is total: no exception escapes).
`elapsed` stands for the wall-clock delta `time.time() - start_time`. -/
def execute (cfg : ExecConfig) (elapsed : Nat) (st : Stats)
    (tool_name : String) (parameters : List (String × PyValue)) :
    ToolResult × Stats :=
  let st := { st with total_executions := st.total_executions + 1 }
  match get_tool cfg.registry tool_name with
  | .inr tr => (tr, { st with failed_executions := st.failed_executions + 1 })
  | .inl tool =>
    match BaseTool.validate_parameters tool.parameters parameters with
    | (false, error, _) =>
      ({ success := false, output := .none,
         error := some ("Parameter validation failed: " ++ error.getD "None"),
         execution_time := elapsed },
       { st with failed_executions := st.failed_executions + 1 })
    | (true, _, ps) =>
      if cfg.safety_enabled then
        let sv := SafetyValidator.validate_parameters tool_name ps
          cfg.allow_warnings
        if !sv.1 then
          ({ success := false, output := .none,
             error := some ("Safety validation failed: " ++
               joinSemiSpace sv.2),
             execution_time := elapsed,
             metadata := [("safety_violations", .list (sv.2.map .str))] },
           { st with blocked_executions := st.blocked_executions + 1 })
        else runTool tool ps elapsed st
      else runTool tool ps elapsed st

/-- A sequence of `execute` calls on one executor, threading the statistics:
each list element is one call's tool name, parameters and elapsed time. -/
def runCalls (cfg : ExecConfig) :
    List (String × List (String × PyValue) × Nat) → Stats → Stats
  | [], st => st
  | (nm, ps, el) :: rest, st => runCalls cfg rest (execute cfg el st nm ps).2

/-- `ToolExecutor.execute_batch(tool_calls, stop_on_error)`: sequential
execution, optionally stopping after the first unsuccessful result; the
partial results are retained. -/
def execute_batch (cfg : ExecConfig) (stop_on_error : Bool) :
    List (ToolCall × Nat) → Stats → List ToolResult × Stats
  | [], st => ([], st)
  | (tc, el) :: rest, st =>
    let (r, st2) := execute cfg el st tc.tool_name tc.parameters
    if stop_on_error && !r.success then ([r], st2)
    else
      let (rs, st3) := execute_batch cfg stop_on_error rest st2
      (r :: rs, st3)

end ToolExecutor

/-! ### The tool-calling loop (`BaseAgent.chat_with_tools`, `src/core/agent.py`)

The LLM client is external: it is modelled as a function from the running
message list to a response.  `json.loads` of a call's argument payload is
modelled by a `parse` function returning `Except` (an `Except.error` models
the raised `JSONDecodeError`), and `self.use_tool` by a function that may
raise.  The `json.dumps` of the `{success, output, error}` tool-response
content is modelled by the structured `Payload` record.  The number of LLM
round-trips is returned alongside the final response; history persistence is
outside the claims and not modelled. -/

/-- One requested tool call of an assistant message (`id`, `function.name`,
`function.arguments` as the raw JSON string). -/
structure ToolCallMsg where
  id : String
  name : String
  arguments : String
deriving Repr, DecidableEq

/-- The assistant message of an LLM response. -/
structure AssistantMsg where
  content : Option String
  tool_calls : List ToolCallMsg
deriving Repr, DecidableEq

/-- An LLM response (`response.choices[0].message`). -/
structure LLMResponse where
  message : AssistantMsg
deriving Repr, DecidableEq

/-- The `{success, output, error}` payload of a tool-response message. -/
structure Payload where
  success : Bool
  output : PyValue
  error : Option String

/-- A message of the running conversation list. -/
inductive Msg where
  | user (content : String)
  | assistant (content : String) (tool_calls : List ToolCallMsg)
  | tool (tool_call_id : String) (payload : Payload)

/-- The parse function type: `json.loads` on an argument payload. -/
abbrev ParseFn := String → Except String (List (String × PyValue))

/-- The `self.use_tool` type: execute a named tool, possibly raising. -/
abbrev UseToolFn := String → List (String × PyValue) → Except String ToolResult

namespace BaseAgent

/-- The assistant message appended for a response that requests tool calls
(`content or ""` plus the echoed `tool_calls`). -/
def assistantOf (resp : LLMResponse) : Msg :=
  .assistant (resp.message.content.getD "") resp.message.tool_calls

/-- The tool-response message appended for one call with parsed params:
the try block around `use_tool` turns a raised fault into a failed payload
for the same correlation id. -/
def execCallMsg (use_tool : UseToolFn) (tc : ToolCallMsg)
    (ps : List (String × PyValue)) : Msg :=
  match use_tool tc.name ps with
  | .ok r => .tool tc.id ⟨r.success, r.output, r.error⟩
  | .error e => .tool tc.id ⟨false, .none, some e⟩

/-- The per-response loop over requested tool calls.  `json.loads` sits
outside the try block in the source, so a parse failure propagates
(`Except.error`) instead of being converted into a failed payload. -/
def processCalls (parse : ParseFn) (use_tool : UseToolFn) :
    List ToolCallMsg → List Msg → Except String (List Msg)
  | [], msgs => .ok msgs
  | tc :: rest, msgs =>
    match parse tc.arguments with
    | .error e => .error e
    | .ok ps => processCalls parse use_tool rest (msgs ++ [execCallMsg use_tool tc ps])

/-- The iteration of `for iteration in range(max_tool_iterations)`: ask the
LLM, return its response when it requests no tool calls, otherwise append
the assistant message, process every requested call, and continue; when the
final iteration also requested calls, the last response is returned as-is.
The second result component counts LLM round-trips; the `0` case models the
`response` name being unbound when the range is empty. -/
def chatLoop (llm : List Msg → LLMResponse) (parse : ParseFn)
    (use_tool : UseToolFn) : Nat → List Msg → Nat →
    Except String (LLMResponse × Nat)
  | 0, _, _ => .error "local variable referenced before assignment"
  | k + 1, msgs, n =>
    let response := llm msgs
    if response.message.tool_calls.isEmpty then .ok (response, n + 1)
    else
      match processCalls parse use_tool response.message.tool_calls
          (msgs ++ [assistantOf response]) with
      | .error e => .error e
      | .ok msgs3 =>
        match k with
        | 0 => .ok (response, n + 1)
        | k2 + 1 => chatLoop llm parse use_tool (k2 + 1) msgs3 (n + 1)

/-- `BaseAgent.chat_with_tools`: run the loop on the seeded message list
with the configured maximum number of iterations. -/
def chat_with_tools (llm : List Msg → LLMResponse) (parse : ParseFn)
    (use_tool : UseToolFn) (messages : List Msg)
    (max_tool_iterations : Nat) : Except String (LLMResponse × Nat) :=
  chatLoop llm parse use_tool max_tool_iterations messages 0

end BaseAgent


/-! ### Concrete fixtures used by witnesses and counterexamples -/

/-- A declared `cmd` string parameter (as a shell tool would declare it). -/
def cmdParam : ToolParameter :=
  .mk "cmd" .STRING "shell command" true .none Option.none Option.none Option.none

/-- A demo tool with the single `cmd` parameter whose execute returns a bare
string (to be coerced into a successful result). -/
def demoTool : Tool :=
  { parameters := [cmdParam], execute := fun _ => .ok (.inr (.str "ran")) }

/-- A registry with the demo tool registered and enabled as `shell`. -/
def demoRegistry : List (String × RegEntry) :=
  [("shell", { enabled := true, make := .ok demoTool })]

/-- An executor configuration with safety enabled and warnings allowed. -/
def demoCfg : ExecConfig :=
  { safety_enabled := true, allow_warnings := true, registry := demoRegistry }

/-- The parameter map `{"cmd": "chmod 777 foo"}`. -/
def chmodParams : List (String × PyValue) := [("cmd", .str "chmod 777 foo")]

/-- The violation `validate_parameters` reports for `chmodParams`. -/
def chmodWarning : String :=
  "Parameter " ++ quote1 "cmd" ++
  ": [WARNING] Overly permissive permissions (chmod 777)"



/-- An optional `timeout` integer parameter with default `30`. -/
def timeoutParam : ToolParameter :=
  .mk "timeout" .INTEGER "seconds" false (.int 30) Option.none Option.none Option.none

/-- A tool that echoes the parameter dict it receives as its output. -/
def echoTool : Tool :=
  { parameters := [timeoutParam], execute := fun ps => .ok (.inr (.dict ps)) }

/-- A registry holding `echoTool` as `echo`. -/
def echoRegistry : List (String × RegEntry) :=
  [("echo", { enabled := true, make := .ok echoTool })]

/-- Executor configuration over `echoRegistry`. -/
def echoCfg : ExecConfig :=
  { safety_enabled := true, allow_warnings := true, registry := echoRegistry }

/-- A tool whose execute always raises. -/
def raisingTool : Tool :=
  { parameters := [], execute := fun _ => .error "kaput" }

/-- A registry holding `raisingTool` as `boom`. -/
def raisingRegistry : List (String × RegEntry) :=
  [("boom", { enabled := true, make := .ok raisingTool })]

/-- Executor configuration over `raisingRegistry`. -/
def raisingCfg : ExecConfig :=
  { safety_enabled := true, allow_warnings := true, registry := raisingRegistry }

/-- Specification helper: the tool-response message the loop appends for
one requested call (the unparsable-payload arm is never reached under the
parse hypotheses of the theorems that use it). -/
def expectedToolMsg (parse : ParseFn) (use_tool : UseToolFn)
    (tc : ToolCallMsg) : Msg :=
  match parse tc.arguments with
  | .ok ps => BaseAgent.execCallMsg use_tool tc ps
  | .error e => .tool tc.id ⟨false, .none, some e⟩

/-- An LLM stub that always requests one tool call with an unparsable
argument payload. -/
def badCallLLM : List Msg → LLMResponse :=
  fun _ => ⟨⟨some "calling", [⟨"call_1", "shell", "not json"⟩]⟩⟩

/-- A parse stub that raises on every payload (as `json.loads` would). -/
def badParse : ParseFn :=
  fun _ => .error "Expecting value: line 1 column 1 (char 0)"

/-- An LLM stub that always requests one well-formed tool call. -/
def alwaysCallLLM : List Msg → LLMResponse :=
  fun _ => ⟨⟨Option.none, [⟨"c1", "shell", "x"⟩]⟩⟩

/-- An LLM stub that immediately answers with no tool calls. -/
def noCallLLM : List Msg → LLMResponse := fun _ => ⟨⟨some "done", []⟩⟩

/-- A parse stub that accepts every payload as an empty parameter dict. -/
def emptyParse : ParseFn := fun _ => .ok []

/-- A `use_tool` stub that always succeeds. -/
def okUseTool : UseToolFn :=
  fun _ _ => .ok { success := true, output := .str "ok" }

/-! ## Theorems -/

/-- The scanning fold of `validate_command`, characterized: the violation
list accumulates one formatted entry per matching rule, and the blocking
flag is an `any` over matching rules of blocking severity. -/
theorem vcFold (command : String) (allow_warnings : Bool) (l : List SafetyRule)
    (vs : List String) (flag : Bool) :
    l.foldl
      (fun (acc : List String × Bool) (rule : SafetyRule) =>
        if searchRE rule.pattern command then
          (acc.1 ++ [formatViolation rule],
           acc.2 || rule.severity == "error" ||
             (rule.severity == "warning" && !allow_warnings))
        else acc)
      (vs, flag) =
    (vs ++ (l.filter (fun r => searchRE r.pattern command)).map formatViolation,
     flag || l.any (fun r => searchRE r.pattern command &&
       (r.severity == "error" || (r.severity == "warning" && !allow_warnings)))) := by
  induction l generalizing vs flag with
  | nil => simp
  | cons r rest ih =>
    simp only [List.foldl_cons, List.filter_cons, List.any_cons]
    by_cases h : searchRE r.pattern command
    · rw [if_pos h, ih]
      simp [h, Bool.or_assoc]
    · rw [if_neg h, ih]
      simp [h]

/-- `validate_command`, closed form. -/
theorem validate_command_eq (command : String) (allow_warnings : Bool) :
    SafetyValidator.validate_command command allow_warnings =
    (!(SafetyValidator.rules.any (fun r => searchRE r.pattern command &&
        (r.severity == "error" || (r.severity == "warning" && !allow_warnings)))),
     (SafetyValidator.rules.filter
        (fun r => searchRE r.pattern command)).map formatViolation) := by
  unfold SafetyValidator.validate_command
  rw [vcFold]
  simp

/-- C6: `validate_command` returns `isSafe=false` if any error-severity rule
matches; a warning-severity match blocks only when `allow_warnings=false`;
`"chmod 777 foo"` yields exactly one warning violation, safe with
`allow_warnings=true` and unsafe with `allow_warnings=false`; and the
violation list holds one formatted entry per matching rule regardless of the
blocking outcome. -/
theorem claimC6 :
    (∀ command allow_warnings, (∃ r ∈ SafetyValidator.rules,
        searchRE r.pattern command = true ∧ r.severity = "error") →
      (SafetyValidator.validate_command command allow_warnings).1 = false) ∧
    (∀ command, (∃ r ∈ SafetyValidator.rules,
        searchRE r.pattern command = true ∧ r.severity = "warning") →
      (SafetyValidator.validate_command command false).1 = false) ∧
    (∀ command, (∀ r ∈ SafetyValidator.rules,
        searchRE r.pattern command = true → r.severity ≠ "error") →
      (SafetyValidator.validate_command command true).1 = true) ∧
    (∀ command allow_warnings,
      (SafetyValidator.validate_command command allow_warnings).2 =
        (SafetyValidator.rules.filter
          (fun r => searchRE r.pattern command)).map formatViolation) ∧
    SafetyValidator.validate_command "chmod 777 foo" true =
      (true, ["[WARNING] Overly permissive permissions (chmod 777)"]) ∧
    SafetyValidator.validate_command "chmod 777 foo" false =
      (false, ["[WARNING] Overly permissive permissions (chmod 777)"]) := by
  refine ⟨?_, ?_, ?_, ?_, by rfl, by rfl⟩
  · rintro command allow_warnings ⟨r, hr, hs, hsev⟩
    rw [validate_command_eq]
    simp only [Bool.not_eq_false', List.any_eq_true]
    exact ⟨r, hr, by simp [hs, hsev]⟩
  · rintro command ⟨r, hr, hs, hsev⟩
    rw [validate_command_eq]
    simp only [Bool.not_eq_false', List.any_eq_true]
    exact ⟨r, hr, by simp [hs, hsev]⟩
  · intro command h
    rw [validate_command_eq]
    simp only [Bool.not_eq_true', List.any_eq_false]
    intro r hr
    by_cases hs : searchRE r.pattern command
    · have := h r hr hs
      simp [hs, this]
    · simp [hs]
  · intro command allow_warnings
    rw [validate_command_eq]

/-- Witness for `claimC6`: the hypothesis-bearing conjuncts discharged at
`"rm -rf /tmp/x"` (an error match) and `"chmod 777 foo"` (a warning match). -/
theorem claimC6_witness :
    (SafetyValidator.validate_command "rm -rf /tmp/x" true).1 = false ∧
    (SafetyValidator.validate_command "chmod 777 foo" false).1 = false ∧
    (SafetyValidator.validate_command "chmod 777 foo" true).1 = true := by
  refine ⟨claimC6.1 "rm -rf /tmp/x" true ?_, claimC6.2.1 "chmod 777 foo" ?_,
    claimC6.2.2.1 "chmod 777 foo" ?_⟩
  · exact ⟨SafetyValidator.rules[0], List.getElem_mem _, by decide, by decide⟩
  · exact ⟨SafetyValidator.rules[8], List.getElem_mem _, by decide, by decide⟩
  · decide

/-- C1 (code bug): in `validate_parameters` the top-level boolean reflects
mere presence of findings, not blocking severity — a parameter map whose
string values match only warning-severity rules is reported unsafe even with
`allow_warnings=true`, and the executor therefore blocks the call instead of
logging the warnings and proceeding (its log-and-proceed branch requires a
non-empty violation list with a true boolean, which this makes unreachable). -/
theorem claimC1 :
    (∀ tool_name params allow_warnings,
      (SafetyValidator.validate_parameters tool_name params allow_warnings).1 =
      (SafetyValidator.validate_parameters tool_name params allow_warnings).2.isEmpty) ∧
    SafetyValidator.validate_parameters "shell" chmodParams true =
      (false, [chmodWarning]) ∧
    (ToolExecutor.execute demoCfg 1 Stats.init "shell" chmodParams).1.success = false ∧
    (ToolExecutor.execute demoCfg 1 Stats.init "shell" chmodParams).1.error =
      some ("Safety validation failed: " ++ chmodWarning) ∧
    (ToolExecutor.execute demoCfg 1 Stats.init "shell" chmodParams).2.blocked_executions = 1 := by
  exact ⟨fun _ _ _ => rfl, by rfl, by rfl, by rfl, by rfl⟩

/-- C3 counterexample: the claim fails at the root directory and at a path
strictly nested only under the root.  `"/"` is in `DANGEROUS_PATHS` (so the
claim calls it unsafe), yet `validate_path` strips it to `""` and reports it
safe with no message; `/home/user` is strictly nested under the root `"/"`
(so the claim calls it safe-with-warning), yet it is reported safe with no
message. -/
theorem claimC3_counterexample :
    ("/" ∈ SafetyValidator.DANGEROUS_PATHS ∧
      SafetyValidator.validate_path "/" = (true, Option.none)) ∧
    SafetyValidator.validate_path "/home/user" = (true, Option.none) := by
  exact ⟨⟨by decide, by rfl⟩, by rfl⟩

/-- `dropWhile` on the slash predicate never exposes a leading slash. -/
theorem dropWhileSlash_no_slash_head (l t : List Char) :
    l.dropWhile (fun c => c == '/') ≠ '/' :: t := by
  induction l with
  | nil => simp
  | cons c rest ih =>
    rw [List.dropWhile_cons]
    by_cases h : c = '/'
    · rw [if_pos (by simp [h])]
      exact ih
    · rw [if_neg (by simp [h])]
      intro hcon
      injection hcon with h1 _
      exact h h1

/-- No `DANGEROUS_PATHS` entry strictly extends another entry below a slash,
so the first-match scan of `validate_path` has no order interference. -/
theorem dangerousPathsNoNest :
    ∀ dp1 ∈ SafetyValidator.DANGEROUS_PATHS,
    ∀ dp2 ∈ SafetyValidator.DANGEROUS_PATHS,
      strStartsWith dp2 (dp1 ++ "/") = false := by decide

/-- The scan of `validate_path` over any entry table without eq/nesting
interference for the scanned string: denial on an exact entry match, a
warning on a strict `/`-separated extension of an entry, nothing otherwise. -/
theorem validatePathGo_char (n path : String) (l : List String)
    (hno : ∀ dp1 ∈ l, ∀ dp2 ∈ l, n = dp2 → strStartsWith n (dp1 ++ "/") = false) :
    SafetyValidator.validatePathGo n path l =
      (if l.contains n then
        (false, some ("Access to critical system path denied: " ++ path))
      else if l.any (fun dp => strStartsWith n (dp ++ "/")) then
        (true, some ("Modification of system path may be dangerous: " ++ path))
      else (true, Option.none)) := by
  induction l with
  | nil => rfl
  | cons dp rest ih =>
    simp only [SafetyValidator.validatePathGo, List.contains_cons, List.any_cons]
    by_cases he : n = dp
    · have hb : (n == dp) = true := by simpa using he
      rw [hb]
      simp
    · have hb : (n == dp) = false := by simpa using he
      rw [hb]
      by_cases hs : strStartsWith n (dp ++ "/") = true
      · have hcon : rest.contains n = false := by
          rcases Bool.eq_false_or_eq_true (rest.contains n) with h | h
          · exfalso
            have hmem : n ∈ rest := by simpa using h
            have hfalse := hno dp (List.mem_cons_self _ _) n
              (List.mem_cons_of_mem _ hmem) rfl
            rw [hs] at hfalse
            simp at hfalse
          · exact h
        simp only [hs, hcon, Bool.false_or, Bool.true_or]
        simp
      · have hs2 : strStartsWith n (dp ++ "/") = false := Bool.eq_false_iff.mpr hs
        simp only [hs2, Bool.false_or, Bool.false_eq_true, if_false]
        exact ih (fun dp1 h1 dp2 h2 hne =>
          hno dp1 (List.mem_cons_of_mem _ h1) dp2 (List.mem_cons_of_mem _ h2) hne)

/-- C3 (amended): `validate_path` denies exactly a path whose form after
stripping ALL trailing slashes equals one of the table entries — the root
entry `"/"` strips to `""` and thus is never denied; it warns exactly when
the stripped path strictly extends an entry below a slash (for the root
entry this means a leading double slash); every other path — the root
itself and paths only under the root included — is safe with no message. -/
theorem claimC3 :
    (∀ path : String,
      SafetyValidator.validate_path path =
        (if SafetyValidator.DANGEROUS_PATHS.contains (rstripSlash path) then
          (false, some ("Access to critical system path denied: " ++ path))
        else if SafetyValidator.DANGEROUS_PATHS.any
            (fun dp => strStartsWith (rstripSlash path) (dp ++ "/")) then
          (true, some ("Modification of system path may be dangerous: " ++ path))
        else (true, Option.none))) ∧
    (∀ path : String, rstripSlash path ≠ "/") ∧
    SafetyValidator.validate_path "/etc" =
      (false, some "Access to critical system path denied: /etc") ∧
    SafetyValidator.validate_path "/etc/passwd" =
      (true, some "Modification of system path may be dangerous: /etc/passwd") := by
  refine ⟨?_, ?_, by rfl, by rfl⟩
  · intro path
    unfold SafetyValidator.validate_path
    refine validatePathGo_char (rstripSlash path) path _ ?_
    intro dp1 h1 dp2 h2 hne
    rw [hne]
    exact dangerousPathsNoNest dp1 h1 dp2 h2
  · intro path hcontra
    have h1 : (rstripSlash path).toList = ['/'] := by rw [hcontra]; rfl
    unfold rstripSlash at h1
    have h2 : ((path.toList.reverse.dropWhile (fun c => c == '/')).reverse) =
        ['/'] := h1
    have h3 : path.toList.reverse.dropWhile (fun c => c == '/') = ['/'] := by
      have := congrArg List.reverse h2
      simpa using this
    exact dropWhileSlash_no_slash_head _ _ h3

/-- C7: boolean values never satisfy the `integer` or `number` kind checks of
`ToolParameter.validate` (a type error naming the parameter is returned),
and the array-item checker `_check_type` likewise rejects booleans for item
types `integer` and `number`. -/
theorem claimC7 :
    (∀ nm desc req dflt en it props b pt,
      pt = ParameterType.INTEGER ∨ pt = ParameterType.NUMBER →
      ToolParameter.validate (.mk nm pt desc req dflt en it props) (.bool b) =
        (false, some ("Parameter " ++ quote1 nm ++ " must be of type " ++
          pt.value))) ∧
    (∀ b, ToolParameter.check_type (.bool b) (.str "integer") = false) ∧
    (∀ b, ToolParameter.check_type (.bool b) (.str "number") = false) := by
  refine ⟨?_, fun b => by cases b <;> decide, fun b => by cases b <;> decide⟩
  rintro nm desc req dflt en it props b pt (rfl | rfl) <;>
    simp [ToolParameter.validate, typeCheckKind, pyIsInt, pyIsBool,
      ParameterType.value]

/-- Witness for `claimC7`: an `integer` parameter rejects `True`. -/
theorem claimC7_witness :
    ToolParameter.validate
      (.mk "count" .INTEGER "d" true .none Option.none Option.none Option.none)
      (.bool true) =
    (false, some ("Parameter " ++ quote1 "count" ++ " must be of type integer")) := by
  exact claimC7.1 "count" "d" true .none Option.none Option.none Option.none
    true .INTEGER (Or.inl rfl)

/-! ### Dictionary lemmas -/

theorem dictGet_append (d1 d2 : List (String × PyValue)) (key : String) :
    dictGet (d1 ++ d2) key =
      match dictGet d1 key with
      | some v => some v
      | Option.none => dictGet d2 key := by
  induction d1 with
  | nil => simp [dictGet]
  | cons kv rest ih =>
    obtain ⟨k, v⟩ := kv
    by_cases h : k = key
    · simp [dictGet, h]
    · simp [dictGet, h, ih]

theorem dictGet_none_of_not_contains (d : List (String × PyValue)) (key : String)
    (h : (d.map Prod.fst).contains key = false) : dictGet d key = Option.none := by
  induction d with
  | nil => rfl
  | cons kv rest ih =>
    obtain ⟨k, v⟩ := kv
    simp only [List.map_cons, List.contains_cons, Bool.or_eq_false_iff] at h
    have h1 : ¬ k = key := by
      intro he
      subst he
      simp at h
    simp [dictGet, h1, ih h.2]

theorem dictGet_mapRepl (d : List (String × PyValue)) (k k2 : String) (v : PyValue) :
    dictGet (d.map (fun kv => (kv.1, if kv.1 = k then v else kv.2))) k2 =
    if k2 = k ∧ (d.map Prod.fst).contains k2 = true then some v
    else dictGet d k2 := by
  induction d with
  | nil => simp [dictGet]
  | cons kv rest ih =>
    obtain ⟨k0, v0⟩ := kv
    simp only [List.map_cons, dictGet, ih, List.contains_cons]
    by_cases h2 : k0 = k2
    · subst h2
      by_cases h0 : k0 = k <;> simp [h0]
    · have h2s : ¬ k2 = k0 := fun he => h2 he.symm
      have h2b : (k2 == k0) = false := by simpa using h2s
      by_cases hk : k2 = k
      · subst hk
        rw [h2b, Bool.false_or]
        simp [h2]
      · simp [h2, hk]

theorem dictGet_dictSet_ne (d : List (String × PyValue)) (k k2 : String)
    (v : PyValue) (h : k2 ≠ k) : dictGet (dictSet d k v) k2 = dictGet d k2 := by
  unfold dictSet
  by_cases hc : (d.map Prod.fst).contains k = true
  · rw [if_pos hc, dictGet_mapRepl]
    simp [h]
  · rw [if_neg hc, dictGet_append]
    cases hg : dictGet d k2 with
    | some w => rfl
    | none =>
      have hk : ¬ k = k2 := fun he => h he.symm
      simp [dictGet, hk]

theorem dictGet_dictSet_self (d : List (String × PyValue)) (k : String)
    (v : PyValue) : dictGet (dictSet d k v) k = some v := by
  unfold dictSet
  by_cases hc : (d.map Prod.fst).contains k = true
  · rw [if_pos hc, dictGet_mapRepl, if_pos ⟨rfl, hc⟩]
  · rw [if_neg hc, dictGet_append,
      dictGet_none_of_not_contains d k (by simpa using hc)]
    simp [dictGet]

/-! ### Lemmas on the defaulting loop of `BaseTool.validate_parameters` -/

/-- `vpStep` leaves every key other than the parameter's own name alone. -/
theorem vpStep_frame (pd : ToolParameter) (ps : List (String × PyValue))
    (k : String) (h : k ≠ pd.name) :
    dictGet (BaseTool.vpStep pd ps).2 k = dictGet ps k := by
  unfold BaseTool.vpStep
  by_cases hc : (pyIsNone ((dictGet ps pd.name).getD .none) &&
      !pyIsNone pd.default) = true
  · rw [if_pos hc]
    exact dictGet_dictSet_ne _ _ _ _ h
  · rw [if_neg hc]

/-- When the looked-up value is `None` and a non-`None` default exists,
`vpStep` writes the default. -/
theorem vpStep_writes (pd : ToolParameter) (ps : List (String × PyValue))
    (habs : pyIsNone ((dictGet ps pd.name).getD .none) = true)
    (hdef : pyIsNone pd.default = false) :
    BaseTool.vpStep pd ps = (pd.default, dictSet ps pd.name pd.default) := by
  unfold BaseTool.vpStep
  rw [if_pos (by rw [habs, hdef]; rfl)]

/-- When the parameter has no applicable default, `vpStep` writes nothing. -/
theorem vpStep_skips (pd : ToolParameter) (ps : List (String × PyValue))
    (h : pyIsNone ((dictGet ps pd.name).getD .none) = false ∨
      pyIsNone pd.default = true) :
    BaseTool.vpStep pd ps = (((dictGet ps pd.name).getD .none), ps) := by
  unfold BaseTool.vpStep
  rcases h with h | h <;> rw [if_neg (by rw [h]; simp)]

/-- The loop never touches a key outside the declared parameter names. -/
theorem vpLoop_frame (decl : List ToolParameter) (ps : List (String × PyValue))
    (k : String) (h : k ∉ decl.map ToolParameter.name) :
    dictGet (BaseTool.vpLoop decl ps).2.2 k = dictGet ps k := by
  induction decl generalizing ps with
  | nil => rfl
  | cons pd rest ih =>
    simp only [List.map_cons, List.mem_cons] at h
    push_neg at h
    obtain ⟨h1, h2⟩ := h
    have hstep := vpStep_frame pd ps k h1
    simp only [BaseTool.vpLoop]
    rcases hv : ToolParameter.validate pd (BaseTool.vpStep pd ps).1 with ⟨ok, err⟩
    cases ok
    · simp [hv, hstep]
    · simp only [hv]
      rw [ih _ h2, hstep]

/-- A key for which no declared parameter triggers a default write is left
unchanged by the loop (whether or not validation succeeds). -/
theorem vpLoop_unchanged (decl : List ToolParameter)
    (ps : List (String × PyValue)) (k : String)
    (h : ∀ p ∈ decl, p.name = k →
      pyIsNone ((dictGet ps k).getD .none) = true → pyIsNone p.default = true) :
    dictGet (BaseTool.vpLoop decl ps).2.2 k = dictGet ps k := by
  induction decl generalizing ps with
  | nil => rfl
  | cons pd rest ih =>
    have hstep : dictGet (BaseTool.vpStep pd ps).2 k = dictGet ps k := by
      by_cases hn : pd.name = k
      · by_cases hv : pyIsNone ((dictGet ps pd.name).getD .none) = true
        · have hd := h pd (List.mem_cons_self _ _) hn (hn ▸ hv)
          rw [vpStep_skips pd ps (Or.inr hd)]
        · rw [vpStep_skips pd ps (Or.inl (Bool.eq_false_iff.mpr hv))]
      · exact vpStep_frame pd ps k (fun he => hn he.symm)
    simp only [BaseTool.vpLoop]
    rcases hv : ToolParameter.validate pd (BaseTool.vpStep pd ps).1 with ⟨ok, err⟩
    cases ok
    · simp [hv, hstep]
    · simp only [hv]
      rw [ih _ (fun p hp hpk habs =>
        h p (List.mem_cons_of_mem _ hp) hpk (by rwa [hstep] at habs)), hstep]

/-- On a successful run of the loop, every declared parameter that was
absent (or `None`) and has a non-`None` default ends up bound to that
default in the returned dict. -/
theorem vpLoop_default (decl : List ToolParameter)
    (ps : List (String × PyValue)) (p : ToolParameter)
    (hnd : (decl.map ToolParameter.name).Nodup) (hmem : p ∈ decl)
    (hsucc : (BaseTool.vpLoop decl ps).1 = true)
    (habs : pyIsNone ((dictGet ps p.name).getD .none) = true)
    (hdef : pyIsNone p.default = false) :
    dictGet (BaseTool.vpLoop decl ps).2.2 p.name = some p.default := by
  induction decl generalizing ps with
  | nil => cases hmem
  | cons pd rest ih =>
    simp only [List.map_cons, List.nodup_cons] at hnd
    obtain ⟨hnotin, hndrest⟩ := hnd
    rcases List.mem_cons.mp hmem with rfl | hmem2
    · have hw := vpStep_writes p ps habs hdef
      simp only [BaseTool.vpLoop, hw] at hsucc ⊢
      rcases hv : ToolParameter.validate p p.default with ⟨ok, err⟩
      cases ok
      · simp [hv] at hsucc
      · simp only [hv]
        rw [vpLoop_frame rest _ p.name hnotin]
        exact dictGet_dictSet_self _ _ _
    · have hne : p.name ≠ pd.name := by
        intro he
        exact hnotin (he ▸ List.mem_map_of_mem ToolParameter.name hmem2)
      have hstep := vpStep_frame pd ps p.name hne
      simp only [BaseTool.vpLoop] at hsucc ⊢
      rcases hv : ToolParameter.validate pd (BaseTool.vpStep pd ps).1 with ⟨ok, err⟩
      cases ok
      · simp [hv] at hsucc
      · simp only [hv] at hsucc ⊢
        exact ih _ hndrest hmem2 hsucc (by rwa [hstep])

/-- C9: a parameter map containing a key not among the declared parameter
names fails `BaseTool.validate_parameters` up front with an unknown-keys
message and an untouched dict, and the executor turns this into a failed
validation outcome. -/
theorem claimC9 (parameters : List ToolParameter)
    (params : List (String × PyValue)) (cfg : ExecConfig) (elapsed : Nat)
    (st : Stats) (tool_name : String) (tool : Tool)
    (hany : ((params.map Prod.fst).any
      (fun k => !(parameters.map ToolParameter.name).contains k)) = true) :
    BaseTool.validate_parameters parameters params =
      (false, some ("Unknown parameters: " ++ joinCommaSpace
        ((params.map Prod.fst).filter
          (fun k => !(parameters.map ToolParameter.name).contains k))), params) ∧
    (ToolRegistry.create cfg.registry tool_name = .ok tool →
      tool.parameters = parameters →
      (ToolExecutor.execute cfg elapsed st tool_name params).1.success = false ∧
      (ToolExecutor.execute cfg elapsed st tool_name params).1.error =
        some ("Parameter validation failed: Unknown parameters: " ++
          joinCommaSpace ((params.map Prod.fst).filter
            (fun k => !(parameters.map ToolParameter.name).contains k)))) := by
  have hne : ((params.map Prod.fst).filter
      (fun k => !(parameters.map ToolParameter.name).contains k)) ≠ [] := by
    rcases List.any_eq_true.mp hany with ⟨k, hk, hfk⟩
    intro hnil
    have := List.filter_eq_nil_iff.mp hnil k hk
    exact this hfk
  have hvp : BaseTool.validate_parameters parameters params =
      (false, some ("Unknown parameters: " ++ joinCommaSpace
        ((params.map Prod.fst).filter
          (fun k => !(parameters.map ToolParameter.name).contains k))), params) := by
    have hie : ((params.map Prod.fst).filter
        (fun k => !(parameters.map ToolParameter.name).contains k)).isEmpty = false :=
      Bool.eq_false_iff.mpr (fun h => hne (List.isEmpty_iff.mp h))
    unfold BaseTool.validate_parameters
    rw [if_pos (by rw [hie]; rfl)]
  refine ⟨hvp, fun hcreate hparams => ?_⟩
  have hexec : ToolExecutor.execute cfg elapsed st tool_name params =
      ({ success := false, output := .none,
         error := some ("Parameter validation failed: Unknown parameters: " ++
           joinCommaSpace ((params.map Prod.fst).filter
             (fun k => !(parameters.map ToolParameter.name).contains k))),
         execution_time := elapsed },
       { st with total_executions := st.total_executions + 1,
                 failed_executions := st.failed_executions + 1 }) := by
    unfold ToolExecutor.execute ToolExecutor.get_tool
    rw [hcreate]
    dsimp only
    rw [hparams, hvp]
    rfl
  rw [hexec]
  exact ⟨rfl, rfl⟩

/-- Witness for `claimC9`: the `shell` tool (declaring only `cmd`) rejects
`{"bogus": "x"}` with an unknown-parameters validation failure. -/
theorem claimC9_witness :
    BaseTool.validate_parameters [cmdParam] [("bogus", .str "x")] =
      (false, some ("Unknown parameters: " ++ joinCommaSpace ["bogus"]),
       [("bogus", .str "x")]) ∧
    (ToolExecutor.execute demoCfg 1 Stats.init "shell"
        [("bogus", .str "x")]).1.success = false := by
  have h := claimC9 [cmdParam] [("bogus", .str "x")] demoCfg 1 Stats.init
    "shell" demoTool (by decide)
  exact ⟨h.1, (h.2 (by rfl) (by rfl)).1⟩

/-- C10: `validate_parameters` writes defaults into the caller's dict: after
a successful validation every declared parameter that was absent (or `None`)
and has a non-`None` default is bound to that default in the (mutated) dict;
keys for which no declared parameter triggers a write are unchanged; and the
executor passes the mutated dict on, so the tool's execute receives the
defaults (observed here through a tool that echoes its parameters). -/
theorem claimC10 :
    (∀ (parameters : List ToolParameter) (params : List (String × PyValue))
       (p : ToolParameter),
      (parameters.map ToolParameter.name).Nodup →
      (BaseTool.validate_parameters parameters params).1 = true →
      p ∈ parameters →
      pyIsNone ((dictGet params p.name).getD .none) = true →
      pyIsNone p.default = false →
      dictGet (BaseTool.validate_parameters parameters params).2.2 p.name =
        some p.default) ∧
    (∀ (parameters : List ToolParameter) (params : List (String × PyValue))
       (k : String),
      (∀ p ∈ parameters, p.name = k →
        pyIsNone ((dictGet params k).getD .none) = true →
        pyIsNone p.default = true) →
      dictGet (BaseTool.validate_parameters parameters params).2.2 k =
        dictGet params k) ∧
    (ToolExecutor.execute echoCfg 2 Stats.init "echo" []).1.output =
      .dict [("timeout", .int 30)] := by
  refine ⟨?_, ?_, by rfl⟩
  · intro parameters params p hnd hsucc hmem habs hdef
    unfold BaseTool.validate_parameters at hsucc ⊢
    by_cases hu : (!((params.map Prod.fst).filter
        (fun k => !(parameters.map ToolParameter.name).contains k)).isEmpty) = true
    · rw [if_pos hu] at hsucc
      simp at hsucc
    · rw [if_neg hu] at hsucc ⊢
      exact vpLoop_default parameters params p hnd hmem hsucc habs hdef
  · intro parameters params k h
    unfold BaseTool.validate_parameters
    by_cases hu : (!((params.map Prod.fst).filter
        (fun kk => !(parameters.map ToolParameter.name).contains kk)).isEmpty) = true
    · rw [if_pos hu]
    · rw [if_neg hu]
      exact vpLoop_unchanged parameters params k h

/-- Witness for `claimC10`: the `timeout` parameter's default `30` is
written into an initially empty parameter dict. -/
theorem claimC10_witness :
    dictGet (BaseTool.validate_parameters [timeoutParam] []).2.2 "timeout" =
      some (.int 30) := by
  exact claimC10.1 [timeoutParam] [] timeoutParam (by simp) (by rfl)
    (List.mem_singleton_self _) (by rfl) (by rfl)

/-! ### Executor statistics lemmas -/

/-- `runTool` leaves `total_executions` alone and increments exactly one of
the success/failure counters. -/
theorem runTool_stats (tool : Tool) (ps : List (String × PyValue))
    (elapsed : Nat) (st : Stats) :
    (ToolExecutor.runTool tool ps elapsed st).2.total_executions =
      st.total_executions ∧
    (ToolExecutor.runTool tool ps elapsed st).2.blocked_executions =
      st.blocked_executions ∧
    (((ToolExecutor.runTool tool ps elapsed st).2.successful_executions =
        st.successful_executions + 1 ∧
      (ToolExecutor.runTool tool ps elapsed st).2.failed_executions =
        st.failed_executions) ∨
     ((ToolExecutor.runTool tool ps elapsed st).2.successful_executions =
        st.successful_executions ∧
      (ToolExecutor.runTool tool ps elapsed st).2.failed_executions =
        st.failed_executions + 1)) := by
  unfold ToolExecutor.runTool
  cases hr : tool.execute ps with
  | error e => exact ⟨rfl, rfl, Or.inr ⟨rfl, rfl⟩⟩
  | ok res =>
    cases res with
    | inl tr =>
      cases hs : tr.success <;> simp [hs]
    | inr v => simp

/-- One `execute` call increments `total_executions` by exactly one and
exactly one of the success/failure/blocked counters by exactly one. -/
theorem execute_stats (cfg : ExecConfig) (elapsed : Nat) (st : Stats)
    (tool_name : String) (params : List (String × PyValue)) :
    (ToolExecutor.execute cfg elapsed st tool_name params).2.total_executions =
      st.total_executions + 1 ∧
    (((ToolExecutor.execute cfg elapsed st tool_name params).2.successful_executions =
        st.successful_executions + 1 ∧
      (ToolExecutor.execute cfg elapsed st tool_name params).2.failed_executions =
        st.failed_executions ∧
      (ToolExecutor.execute cfg elapsed st tool_name params).2.blocked_executions =
        st.blocked_executions) ∨
     ((ToolExecutor.execute cfg elapsed st tool_name params).2.successful_executions =
        st.successful_executions ∧
      (ToolExecutor.execute cfg elapsed st tool_name params).2.failed_executions =
        st.failed_executions + 1 ∧
      (ToolExecutor.execute cfg elapsed st tool_name params).2.blocked_executions =
        st.blocked_executions) ∨
     ((ToolExecutor.execute cfg elapsed st tool_name params).2.successful_executions =
        st.successful_executions ∧
      (ToolExecutor.execute cfg elapsed st tool_name params).2.failed_executions =
        st.failed_executions ∧
      (ToolExecutor.execute cfg elapsed st tool_name params).2.blocked_executions =
        st.blocked_executions + 1)) := by
  unfold ToolExecutor.execute ToolExecutor.get_tool
  cases hc : ToolRegistry.create cfg.registry tool_name with
  | error e =>
    cases e with
    | valueError m => exact ⟨rfl, Or.inr (Or.inl ⟨rfl, rfl, rfl⟩)⟩
    | exc m => exact ⟨rfl, Or.inr (Or.inl ⟨rfl, rfl, rfl⟩)⟩
  | ok tool =>
    dsimp only
    rcases hv : BaseTool.validate_parameters tool.parameters params with ⟨ok, e, ps⟩
    cases ok with
    | false => exact ⟨rfl, Or.inr (Or.inl ⟨rfl, rfl, rfl⟩)⟩
    | true =>
      dsimp only
      by_cases hs : cfg.safety_enabled = true
      · rw [if_pos hs]
        by_cases hu : (!(SafetyValidator.validate_parameters tool_name ps
            cfg.allow_warnings).1) = true
        · rw [if_pos hu]
          exact ⟨rfl, Or.inr (Or.inr ⟨rfl, rfl, rfl⟩)⟩
        · rw [if_neg hu]
          have h := runTool_stats tool ps elapsed
            { st with total_executions := st.total_executions + 1 }
          rcases h with ⟨h1, h2, h3 | h3⟩
          · exact ⟨h1, Or.inl ⟨h3.1, h3.2, h2⟩⟩
          · exact ⟨h1, Or.inr (Or.inl ⟨h3.1, h3.2, h2⟩)⟩
      · rw [if_neg hs]
        have h := runTool_stats tool ps elapsed
          { st with total_executions := st.total_executions + 1 }
        rcases h with ⟨h1, h2, h3 | h3⟩
        · exact ⟨h1, Or.inl ⟨h3.1, h3.2, h2⟩⟩
        · exact ⟨h1, Or.inr (Or.inl ⟨h3.1, h3.2, h2⟩)⟩

/-- The executor statistics invariant is preserved along any call sequence. -/
theorem runCalls_inv (cfg : ExecConfig)
    (calls : List (String × List (String × PyValue) × Nat)) (st : Stats)
    (h : st.total_executions = st.successful_executions +
      st.failed_executions + st.blocked_executions) :
    (ToolExecutor.runCalls cfg calls st).total_executions =
      (ToolExecutor.runCalls cfg calls st).successful_executions +
      (ToolExecutor.runCalls cfg calls st).failed_executions +
      (ToolExecutor.runCalls cfg calls st).blocked_executions := by
  induction calls generalizing st with
  | nil => exact h
  | cons c rest ih =>
    obtain ⟨nm, ps, el⟩ := c
    have hstep := execute_stats cfg el st nm ps
    refine ih (ToolExecutor.execute cfg el st nm ps).2 ?_
    rcases hstep with ⟨h1, h2 | h2 | h2⟩ <;>
      rcases h2 with ⟨ha, hb, hc2⟩ <;> rw [h1, ha, hb, hc2, h] <;> omega

/-- C8: each `execute` call increments `total_executions` by exactly one and
exactly one of the success/failure/blocked counters by exactly one, so after
any sequence of calls on a fresh executor
`total = successful + failed + blocked`. -/
theorem claimC8 :
    (∀ cfg elapsed st tool_name params,
      (ToolExecutor.execute cfg elapsed st tool_name params).2.total_executions =
        st.total_executions + 1 ∧
      (((ToolExecutor.execute cfg elapsed st tool_name params).2.successful_executions =
          st.successful_executions + 1 ∧
        (ToolExecutor.execute cfg elapsed st tool_name params).2.failed_executions =
          st.failed_executions ∧
        (ToolExecutor.execute cfg elapsed st tool_name params).2.blocked_executions =
          st.blocked_executions) ∨
       ((ToolExecutor.execute cfg elapsed st tool_name params).2.successful_executions =
          st.successful_executions ∧
        (ToolExecutor.execute cfg elapsed st tool_name params).2.failed_executions =
          st.failed_executions + 1 ∧
        (ToolExecutor.execute cfg elapsed st tool_name params).2.blocked_executions =
          st.blocked_executions) ∨
       ((ToolExecutor.execute cfg elapsed st tool_name params).2.successful_executions =
          st.successful_executions ∧
        (ToolExecutor.execute cfg elapsed st tool_name params).2.failed_executions =
          st.failed_executions ∧
        (ToolExecutor.execute cfg elapsed st tool_name params).2.blocked_executions =
          st.blocked_executions + 1))) ∧
    (∀ cfg calls,
      (ToolExecutor.runCalls cfg calls Stats.init).total_executions =
        (ToolExecutor.runCalls cfg calls Stats.init).successful_executions +
        (ToolExecutor.runCalls cfg calls Stats.init).failed_executions +
        (ToolExecutor.runCalls cfg calls Stats.init).blocked_executions) :=
  ⟨execute_stats, fun cfg calls => runCalls_inv cfg calls Stats.init rfl⟩

/-- C4: `execute` is a total function into `ToolResult` (the embedding has
no escaping exception by construction, mirroring the outer try/except), and
each failure mode — unregistered/disabled resolution, failed parameter
validation, safety block, and a raised fault inside the tool's execute — is
converted into a failed result carrying an error message. -/
theorem claimC4 (cfg : ExecConfig) (elapsed : Nat) (st : Stats)
    (tool_name : String) (params : List (String × PyValue)) :
    (∀ err, ToolRegistry.create cfg.registry tool_name = .error err →
      (ToolExecutor.execute cfg elapsed st tool_name params).1.success = false ∧
      (ToolExecutor.execute cfg elapsed st tool_name params).1.error.isSome = true) ∧
    (∀ tool, ToolRegistry.create cfg.registry tool_name = .ok tool →
      (BaseTool.validate_parameters tool.parameters params).1 = false →
      (ToolExecutor.execute cfg elapsed st tool_name params).1.success = false ∧
      (ToolExecutor.execute cfg elapsed st tool_name params).1.error.isSome = true) ∧
    (∀ tool e2 ps, ToolRegistry.create cfg.registry tool_name = .ok tool →
      BaseTool.validate_parameters tool.parameters params = (true, e2, ps) →
      cfg.safety_enabled = true →
      (SafetyValidator.validate_parameters tool_name ps cfg.allow_warnings).1 = false →
      (ToolExecutor.execute cfg elapsed st tool_name params).1.success = false ∧
      (ToolExecutor.execute cfg elapsed st tool_name params).1.error.isSome = true) ∧
    (∀ tool e2 ps emsg, ToolRegistry.create cfg.registry tool_name = .ok tool →
      BaseTool.validate_parameters tool.parameters params = (true, e2, ps) →
      (cfg.safety_enabled = false ∨
        (SafetyValidator.validate_parameters tool_name ps cfg.allow_warnings).1 = true) →
      tool.execute ps = .error emsg →
      (ToolExecutor.execute cfg elapsed st tool_name params).1 =
        { success := false, output := .none,
          error := some ("Execution error: " ++ emsg),
          execution_time := elapsed }) := by
  refine ⟨?_, ?_, ?_, ?_⟩
  · intro err hcreate
    unfold ToolExecutor.execute ToolExecutor.get_tool
    rw [hcreate]
    cases err <;> exact ⟨rfl, rfl⟩
  · intro tool hcreate hval
    unfold ToolExecutor.execute ToolExecutor.get_tool
    rw [hcreate]
    dsimp only
    rcases hv : BaseTool.validate_parameters tool.parameters params with ⟨ok, e, ps⟩
    rw [hv] at hval
    cases ok with
    | false => exact ⟨rfl, rfl⟩
    | true => simp at hval
  · intro tool e2 ps hcreate hval hsafe hblocked
    unfold ToolExecutor.execute ToolExecutor.get_tool
    rw [hcreate]
    dsimp only
    rw [hval]
    dsimp only
    rw [if_pos hsafe, if_pos (by rw [hblocked]; rfl)]
    exact ⟨rfl, rfl⟩
  · intro tool e2 ps emsg hcreate hval hsafe hrun
    unfold ToolExecutor.execute ToolExecutor.get_tool
    rw [hcreate]
    dsimp only
    rw [hval]
    dsimp only
    have hrt : (ToolExecutor.runTool tool ps elapsed
        { st with total_executions := st.total_executions + 1 }).1 =
        { success := false, output := .none,
          error := some ("Execution error: " ++ emsg),
          execution_time := elapsed } := by
      unfold ToolExecutor.runTool
      rw [hrun]
    rcases hsafe with hsafe | hsafe
    · rw [if_neg (by rw [hsafe]; exact Bool.false_ne_true)]
      exact hrt
    · by_cases hs : cfg.safety_enabled = true
      · rw [if_pos hs, if_neg (by rw [hsafe]; simp)]
        exact hrt
      · rw [if_neg hs]
        exact hrt

/-- Witness for `claimC4`: the four failure modes at concrete inputs — an
unregistered name, an unknown parameter key, a blocked `chmod 777` command,
and a raising tool. -/
theorem claimC4_witness :
    ((ToolExecutor.execute demoCfg 1 Stats.init "nope" []).1.success = false ∧
     (ToolExecutor.execute demoCfg 1 Stats.init "nope" []).1.error.isSome = true) ∧
    ((ToolExecutor.execute demoCfg 1 Stats.init "shell"
        [("bogus", .str "x")]).1.success = false) ∧
    ((ToolExecutor.execute demoCfg 1 Stats.init "shell" chmodParams).1.success = false) ∧
    ((ToolExecutor.execute raisingCfg 1 Stats.init "boom" []).1 =
      { success := false, output := .none,
        error := some ("Execution error: kaput"), execution_time := 1 }) := by
  refine ⟨?_, ?_, ?_, ?_⟩
  · exact (claimC4 demoCfg 1 Stats.init "nope" []).1 _ (by rfl)
  · exact ((claimC4 demoCfg 1 Stats.init "shell" [("bogus", .str "x")]).2.1
      demoTool (by rfl) (by rfl)).1
  · exact ((claimC4 demoCfg 1 Stats.init "shell" chmodParams).2.2.1
      demoTool Option.none chmodParams (by rfl) (by rfl) (by rfl) (by rfl)).1
  · exact (claimC4 raisingCfg 1 Stats.init "boom" []).2.2.2
      raisingTool Option.none [] "kaput" (by rfl) (by rfl) (Or.inr (by rfl)) (by rfl)

/-- When every requested call's payload parses, the per-response loop never
aborts: it returns the message list extended with exactly one tool-response
message per call, in request order. -/
theorem processCalls_ok (parse : ParseFn) (use_tool : UseToolFn)
    (calls : List ToolCallMsg) (msgs : List Msg)
    (h : ∀ tc ∈ calls, ∃ ps, parse tc.arguments = .ok ps) :
    BaseAgent.processCalls parse use_tool calls msgs =
      .ok (msgs ++ calls.map (expectedToolMsg parse use_tool)) := by
  induction calls generalizing msgs with
  | nil => simp [BaseAgent.processCalls]
  | cons tc rest ih =>
    obtain ⟨ps, hps⟩ := h tc (List.mem_cons_self _ _)
    simp only [BaseAgent.processCalls, hps]
    rw [ih _ (fun t ht => h t (List.mem_cons_of_mem _ ht))]
    simp [expectedToolMsg, hps]

/-- C2 (amended): when the argument payloads parse, the loop's per-response
processing appends one tool-response message per requested call (in order,
never aborting), and a raised fault from executing a call is converted into
a failed `{success, output, error}` payload tagged with that call's
correlation id. -/
theorem claimC2_amended :
    (∀ (parse : ParseFn) (use_tool : UseToolFn) (calls : List ToolCallMsg)
       (msgs : List Msg),
      (∀ tc ∈ calls, ∃ ps, parse tc.arguments = .ok ps) →
      BaseAgent.processCalls parse use_tool calls msgs =
        .ok (msgs ++ calls.map (expectedToolMsg parse use_tool))) ∧
    (∀ (use_tool : UseToolFn) (tc : ToolCallMsg) ps e,
      use_tool tc.name ps = .error e →
      BaseAgent.execCallMsg use_tool tc ps =
        .tool tc.id ⟨false, .none, some e⟩) := by
  refine ⟨processCalls_ok, fun use_tool tc ps e he => ?_⟩
  unfold BaseAgent.execCallMsg
  rw [he]

/-- Witness for `claimC2_amended`: one raising call produces one failed
tool-response message with its correlation id, and the loop goes on. -/
theorem claimC2_amended_witness :
    BaseAgent.processCalls emptyParse (fun _ _ => .error "kaput")
      [⟨"c1", "shell", "x"⟩, ⟨"c2", "shell", "y"⟩] [] =
    .ok [.tool "c1" ⟨false, .none, some "kaput"⟩,
         .tool "c2" ⟨false, .none, some "kaput"⟩] := by
  exact claimC2_amended.1 emptyParse (fun _ _ => .error "kaput")
    [⟨"c1", "shell", "x"⟩, ⟨"c2", "shell", "y"⟩] []
    (fun tc _ => ⟨[], rfl⟩)

/-- C2 counterexample: a requested call whose JSON argument payload fails to
parse aborts the tool-calling loop — `json.loads` sits outside the try block,
so the raised parse error propagates instead of being turned into a failed
payload for that call. -/
theorem claimC2_counterexample :
    BaseAgent.chat_with_tools badCallLLM badParse okUseTool [] 3 =
      .error "Expecting value: line 1 column 1 (char 0)" := by rfl

/-- When every response requests at least one tool call and every payload
parses, `k + 1` remaining iterations perform exactly `k + 1` further LLM
round-trips and return the response of the last one. -/
theorem chatLoop_rounds (llm : List Msg → LLMResponse) (parse : ParseFn)
    (use_tool : UseToolFn)
    (hcalls : ∀ msgs, (llm msgs).message.tool_calls ≠ [])
    (hparse : ∀ s, ∃ ps, parse s = .ok ps) :
    ∀ k msgs n, ∃ m,
      BaseAgent.chatLoop llm parse use_tool (k + 1) msgs n =
        .ok (llm m, n + k + 1) := by
  intro k
  induction k with
  | zero =>
    intro msgs n
    refine ⟨msgs, ?_⟩
    have hie : (llm msgs).message.tool_calls.isEmpty = false := by
      cases h : (llm msgs).message.tool_calls with
      | nil => exact absurd h (hcalls msgs)
      | cons a l => rfl
    rw [BaseAgent.chatLoop]
    rw [if_neg (by rw [hie]; exact Bool.false_ne_true),
      processCalls_ok parse use_tool _ _ (fun tc _ => hparse tc.arguments)]
  | succ k ih =>
    intro msgs n
    have hie : (llm msgs).message.tool_calls.isEmpty = false := by
      cases h : (llm msgs).message.tool_calls with
      | nil => exact absurd h (hcalls msgs)
      | cons a l => rfl
    obtain ⟨m, hm⟩ := ih ((msgs ++ [BaseAgent.assistantOf (llm msgs)]) ++
      (llm msgs).message.tool_calls.map (expectedToolMsg parse use_tool)) (n + 1)
    refine ⟨m, ?_⟩
    rw [BaseAgent.chatLoop]
    rw [if_neg (by rw [hie]; exact Bool.false_ne_true),
      processCalls_ok parse use_tool _ _ (fun tc _ => hparse tc.arguments)]
    dsimp only
    rw [hm]
    congr 2
    omega

/-- C5: with a stub whose every response requests a tool call (and parsable
payloads), the loop performs exactly `N ≥ 1` LLM round-trips and returns the
N-th response unmodified — a soft cap, not an error; and whenever a round's
response carries no tool calls, the loop stops at that round-trip and
returns that response. -/
theorem claimC5 :
    (∀ (llm : List Msg → LLMResponse) (parse : ParseFn) (use_tool : UseToolFn)
       (msgs0 : List Msg) (N : Nat),
      1 ≤ N →
      (∀ msgs, (llm msgs).message.tool_calls ≠ []) →
      (∀ s, ∃ ps, parse s = .ok ps) →
      ∃ m, BaseAgent.chat_with_tools llm parse use_tool msgs0 N =
        .ok (llm m, N)) ∧
    (∀ (llm : List Msg → LLMResponse) (parse : ParseFn) (use_tool : UseToolFn)
       (k : Nat) (msgs : List Msg) (n : Nat),
      (llm msgs).message.tool_calls = [] →
      BaseAgent.chatLoop llm parse use_tool (k + 1) msgs n =
        .ok (llm msgs, n + 1)) := by
  constructor
  · intro llm parse use_tool msgs0 N hN hcalls hparse
    obtain ⟨k, rfl⟩ : ∃ k, N = k + 1 := ⟨N - 1, by omega⟩
    obtain ⟨m, hm⟩ := chatLoop_rounds llm parse use_tool hcalls hparse k msgs0 0
    refine ⟨m, ?_⟩
    unfold BaseAgent.chat_with_tools
    rw [hm]
    congr 2
    omega
  · intro llm parse use_tool k msgs n hnone
    rw [BaseAgent.chatLoop]
    rw [if_pos (by rw [hnone]; rfl)]

/-- Witness for `claimC5`: a constant always-calling stub run with
`max_tool_iterations = 3` makes exactly 3 round-trips and returns the 3rd
(identical) response; a no-call stub stops after 1 round-trip. -/
theorem claimC5_witness :
    (∃ m, BaseAgent.chat_with_tools alwaysCallLLM emptyParse okUseTool [] 3 =
      .ok (alwaysCallLLM m, 3)) ∧
    BaseAgent.chatLoop noCallLLM emptyParse okUseTool 5 [] 0 =
      .ok (noCallLLM [], 1) := by
  constructor
  · exact claimC5.1 alwaysCallLLM emptyParse okUseTool [] 3 (by omega)
      (fun msgs => by simp [alwaysCallLLM]) (fun s => ⟨[], rfl⟩)
  · exact claimC5.2 noCallLLM emptyParse okUseTool 4 [] 0 (by rfl)
